import Mathlib

set_option maxRecDepth 40000

/-
Verification of the buddy heap allocator (src/mlfq and buddy/malloc.c) and the
signal subsystem (src/signals/signal.c) of this Pintos derivative.

Modelling conventions.
The allocator metadata is a state record: the eight descriptor free lists
(classes 16, 32, ..., 2048 bytes), the global page_list of arenas with their
SlotMap occupancy arrays, and the list of pages handed back to the page
provider.  Block addresses are (arena id, payload byte offset) pairs; the C
pointer arithmetic relative to a + sizeof(struct arena) becomes arithmetic on
offsets.  Intrusive free-list links, which in C live inside the free blocks
themselves, are modelled as the separate free-list state component.  Payload
bytes are a separate memory function used by memcpy and memset.  ASSERT comes
from debug.h, which is outside this repository snapshot; following section 7
of the specification (invalid argument returns null, fatal assertions are
reserved for corruption) the build is modelled with NDEBUG, so ASSERT is a
no-op and the debug memset of freed blocks is compiled out.  While loops
become fuel-indexed structural recursions with fuel bounds that the C loop
bounds justify.
-/

namespace Buddy

/-- Page size in bytes: PGSIZE from threads/vaddr.h, fixed to 4096 by the
specification (PGBITS = 12). -/
def PGSIZE : Nat := 4096

/-- Magic number for detecting arena corruption (ARENA_MAGIC in malloc.c). -/
def ARENA_MAGIC : Nat := 0x9a548eed

/-- Number of descriptors installed by malloc_init: block sizes
16, 32, ..., PGSIZE/2, hence 8 of them. -/
def descCnt : Nat := 8

/-- Block size managed by descriptor i, that is descs[i].block_size.
malloc_init assigns 16, 32, ..., doubling per descriptor. -/
def classSize (i : Nat) : Nat := 16 <<< i

/-- A block, identified by the id of its arena and its byte offset inside the
arena payload: the C block pointer is arena base + sizeof(struct arena) + off. -/
structure Block where
  arena : Nat
  off : Nat
deriving DecidableEq

/-- An arena: one page obtained from the page allocator.  arr is the SlotMap,
an array of 1 <<< (PGBITS - 1 - 4) = 128 occupancy entries, one per 16-byte
payload slot. -/
structure Arena where
  id : Nat
  magic : Nat
  arr : List Nat
deriving DecidableEq

/-- Allocator state: the descriptor free lists (index i holds free blocks of
size classSize i), the global page_list, and the pages that have been handed
back to palloc_free_page, recording the calls made to the page provider. -/
structure AllocState where
  freeLists : List (List Block)
  pageList : List Arena
  released : List Nat
deriving DecidableEq

/-- State right after malloc_init: eight empty free lists, empty page_list. -/
def initState : AllocState :=
  { freeLists := List.replicate 8 [], pageList := [], released := [] }

/-- Free list of descriptor i. -/
def getList (st : AllocState) (i : Nat) : List Block :=
  st.freeLists.getD i []

/-- Replace the free list of descriptor i. -/
def setList (st : AllocState) (i : Nat) (l : List Block) : AllocState :=
  { st with freeLists := st.freeLists.set i l }

/-- list_push_back onto descriptor i's free list. -/
def pushBack (st : AllocState) (i : Nat) (b : Block) : AllocState :=
  setList st i (getList st i ++ [b])

/-- Intrusive list_remove of a free block node: the node is unlinked from
whichever free list holds it; since a block node occurs on at most one list,
erasing it from every list is the list-of-values rendering of that unlink. -/
def removeBlock (st : AllocState) (b : Block) : AllocState :=
  { st with freeLists := st.freeLists.map (fun l => l.erase b) }

/-- Read a->arr[slot] of the arena with the given id (0 when absent). -/
def slotEntry (st : AllocState) (aid slot : Nat) : Nat :=
  match st.pageList.find? (fun a => a.id == aid) with
  | some a => a.arr.getD slot 0
  | none => 0

/-- Write a->arr[slot] = v in the arena with the given id. -/
def setSlot (st : AllocState) (aid slot v : Nat) : AllocState :=
  { st with pageList :=
      st.pageList.map (fun a =>
        if a.id = aid then { a with arr := a.arr.set slot v } else a) }

/-- list_remove(&a->elem) from page_list followed by palloc_free_page(a). -/
def releasePage (st : AllocState) (aid : Nat) : AllocState :=
  { st with pageList := st.pageList.eraseP (fun a => a.id == aid),
            released := st.released ++ [aid] }

/-- block_size from malloc.c: a->arr[((void *) b - (void *) a - sizeof *a) >> 4],
the SlotMap entry of the slot at which the block starts. -/
def block_size (st : AllocState) (b : Block) : Nat :=
  slotEntry st b.arena (b.off >>> 4)

/-- The scan of malloc's for loop: the first descriptor d (in ascending order)
with d->block_size >= size and a nonempty free list, if any.  When the scan
reaches the last descriptor without a hit, malloc refills from the page
provider; since descs[7].block_size = PGSIZE/2 >= size always holds there,
this happens exactly when the scan finds nothing. -/
def findIdx (size : Nat) (st : AllocState) : Option Nat :=
  (List.range descCnt).find? (fun i =>
    decide (size ≤ classSize i) && !(getList st i).isEmpty)

/-- The split-down while loop of malloc.  d is the current descriptor index, b
the retained block (its address never moves); while d->block_size is not 16
and at least 2*size, step to the previous descriptor and push the upper half,
at address b + d->block_size, onto its free list.  The C loop runs at most 8
times (d only decreases), so fuel 8 is exact. -/
def splitLoop : Nat → Nat → Nat → Block → AllocState → Nat × AllocState
  | 0, d, _, _, st => (d, st)
  | fuel + 1, d, size, b, st =>
      if classSize d = 16 then (d, st)
      else if 2 * size ≤ classSize d then
        splitLoop fuel (d - 1) size b
          (pushBack st (d - 1) (Block.mk b.arena (b.off + classSize (d - 1))))
      else (d, st)

/-- Tail of malloc shared by the fast path and the refill path: run the
split-down loop from descriptor d, record the final block size in the SlotMap
slot of b, and return b. -/
def mallocFinish (b : Block) (d size : Nat) (st : AllocState) :
    Option Block × AllocState :=
  let r := splitLoop 8 d size b st
  (some b, setSlot r.2 b.arena (b.off >>> 4) (classSize r.1))

/-- malloc(size).  fresh is the page the provider would return on a
palloc_get_page call (none when the provider is exhausted).  Returns the
block and the new allocator state. -/
def malloc (fresh : Option Nat) (size : Nat) (st : AllocState) :
    Option Block × AllocState :=
  if size = 0 ∨ PGSIZE / 2 < size then (none, st)
  else
    match findIdx size st with
    | some i =>
        mallocFinish ((getList st i).headD (Block.mk 0 0)) i size
          (setList st i (getList st i).tail)
    | none =>
        match fresh with
        | none => (none, st)
        | some aid =>
            let stp : AllocState :=
              { st with pageList :=
                  st.pageList ++ [Arena.mk aid ARENA_MAGIC (List.replicate 128 0)] }
            let st2 := pushBack stp 7 (Block.mk aid 0)
            mallocFinish ((getList st2 7).headD (Block.mk 0 0)) 7 size
              (setList st2 7 (getList st2 7).tail)

/-- The index loop of free: while (b_sz > (1ul << (idx + 4))) ++idx.  b_sz is
a 32-bit size_t, so at most 32 iterations can ever run; fuel 32 is enough. -/
def idxLoop : Nat → Nat → Nat → Nat
  | 0, idx, _ => idx
  | fuel + 1, idx, bsz => if 1 <<< (idx + 4) < bsz then idxLoop fuel (idx + 1) bsz else idx

/-- The buddy-scan for loop of free: for (i = 0; i < b_sz; i += 16) check
a->arr[(buddy_off + i) >> 4]; true when some entry in the buddy's slot range
is nonzero, that is, the buddy is not entirely free. -/
def buddyOccupied (st : AllocState) (aid boff bsz : Nat) : Bool :=
  (List.range ((bsz + 15) / 16)).any (fun j =>
    slotEntry st aid ((boff + 16 * j) >>> 4) != 0)

/-- The coalesce while loop of free.  At each iteration: a block of size
PGSIZE/2 means the arena is entirely free, so unlink it from page_list and
return the page to the provider; otherwise find the buddy at offset
b.off ^^^ bsz, push b onto descriptor idx's free list if the buddy is not
entirely free, and otherwise unlink the buddy, keep the lower address, double
bsz, bump idx and loop.  Starting from a live block the loop runs at most 8
iterations (idx climbs to 7 at the latest), so free passes fuel 8. -/
def coalesceLoop : Nat → Nat → Nat → Block → AllocState → AllocState
  | 0, _, _, _, st => st
  | fuel + 1, idx, bsz, b, st =>
      if bsz = PGSIZE / 2 then releasePage st b.arena
      else if buddyOccupied st b.arena (b.off ^^^ bsz) bsz then pushBack st idx b
      else
        coalesceLoop fuel (idx + 1) (2 * bsz)
          (Block.mk b.arena (min b.off (b.off ^^^ bsz)))
          (removeBlock st (Block.mk b.arena (b.off ^^^ bsz)))

/-- free(p).  Null is a no-op; otherwise read the block size from the SlotMap,
clear the block's SlotMap entry, derive the class index, and run the coalesce
loop.  The NDEBUG build is modelled, so the debug memset of the freed block is
compiled out. -/
def free (p : Option Block) (st : AllocState) : AllocState :=
  match p with
  | none => st
  | some b =>
      let bsz := block_size st b
      let st1 := setSlot st b.arena (b.off >>> 4) 0
      coalesceLoop 8 (idxLoop 32 0 bsz) bsz b st1

/-- Payload memory: arena id and payload byte offset to byte value. -/
abbrev Mem := Nat → Nat → Nat

/-- memcpy(dst, src, n) on payload memory (reads are from the pre-call
snapshot, as in the non-overlapping case C requires). -/
def memcpy (dst src : Block) (n : Nat) (m : Mem) : Mem :=
  fun a o =>
    if a = dst.arena ∧ dst.off ≤ o ∧ o < dst.off + n then
      m src.arena (src.off + (o - dst.off))
    else m a o

/-- memset(dst, v, n) on payload memory. -/
def memset (dst : Block) (v n : Nat) (m : Mem) : Mem :=
  fun a o => if a = dst.arena ∧ dst.off ≤ o ∧ o < dst.off + n then v else m a o

/-- realloc(old, new_size).  Zero size frees old and returns null; otherwise
malloc first, and only when both old and the new block are non-null copy
min(new_size, block_size(old)) bytes and free old. -/
def realloc (fresh : Option Nat) (old : Option Block) (new_size : Nat)
    (st : AllocState) (m : Mem) : Option Block × AllocState × Mem :=
  if new_size = 0 then (none, free old st, m)
  else
    let r := malloc fresh new_size st
    match old with
    | none => (r.1, r.2, m)
    | some ob =>
        match r.1 with
        | none => (none, r.2, m)
        | some nb =>
            (some nb, free (some ob) r.2,
             memcpy nb ob (min new_size (block_size r.2 ob)) m)

/-- Wrap-around modulus of the 32-bit size_t of this (32-bit) kernel. -/
def W32 : Nat := 2 ^ 32

/-- calloc(a, b): size = a * b in size_t arithmetic; if size < a or size < b
return null, else malloc and zero the size bytes of the result. -/
def calloc (fresh : Option Nat) (a b : Nat) (st : AllocState) (m : Mem) :
    Option Block × AllocState × Mem :=
  if (a * b) % W32 < a ∨ (a * b) % W32 < b then (none, st, m)
  else
    let r := malloc fresh ((a * b) % W32) st
    match r.1 with
    | some p => (some p, r.2, memset p 0 ((a * b) % W32) m)
    | none => (none, r.2, m)

end Buddy

namespace Signals

/-- Modelled from the spec: the signal numbers and NUM_SIGNAL are declared in
threads/thread.h, which is not part of this snapshot; the spec names exactly
the five signals kill, user, cpu, child and unblock, so they are assigned the
five distinct numbers 0..4 and NUM_SIGNAL = 5. -/
def SIG_KILL : Nat := 0

/-- Modelled from the spec: see SIG_KILL. -/
def SIG_USER : Nat := 1

/-- Modelled from the spec: see SIG_KILL. -/
def SIG_CPU : Nat := 2

/-- Modelled from the spec: see SIG_KILL. -/
def SIG_CHLD : Nat := 3

/-- Modelled from the spec: see SIG_KILL. -/
def SIG_UBLOCK : Nat := 4

/-- Modelled from the spec: see SIG_KILL. -/
def NUM_SIGNAL : Nat := 5

/-- Modelled from the spec: sighandler_t default indicator.  Signal returns 0
for the non-overridable SIG_KILL and encodes default-vs-ignore in one mask
bit, so SIG_DFL = 0 and SIG_IGN = 1. -/
def SIG_DFL : Nat := 0

/-- Modelled from the spec: see SIG_DFL. -/
def SIG_IGN : Nat := 1

/-- How argument of sigprocmask, from the comment in signal.c:
0 - SIG_BLOCK, 1 - SIG_UNBLOCK, 2 - SIG_SETMASK. -/
def SIG_BLOCK : Int := 0

/-- See SIG_BLOCK. -/
def SIG_UNBLOCK : Int := 1

/-- See SIG_BLOCK. -/
def SIG_SETMASK : Int := 2

/-- Thread status values from the thread registry (external collaborator). -/
inductive ThreadStatus where
  | RUNNING
  | READY
  | BLOCKED
  | DYING
deriving DecidableEq

/-- A pending-signal slot: type = -1 marks the slot empty. -/
structure SigSlot where
  type : Int
  sent_by : Int
deriving DecidableEq

/-- The signal-related fields of a thread descriptor.  signals is the
pending-slot array indexed by signal number (modelled total), signals_queue
the FIFO of pending slot links, rendered as the signal numbers whose
threadelem is queued, in queue order. -/
structure Thread where
  tid : Int
  ptid : Int
  status : ThreadStatus
  mask : Nat
  signals : Nat → SigSlot
  signals_queue : List Nat

/-- Pointwise update of the pending-slot array. -/
def updSig (f : Nat → SigSlot) (i : Nat) (v : SigSlot) : Nat → SigSlot :=
  fun j => if j = i then v else f j

/-- kill(tid, sig) from signal.c.  curTid is running_thread()->tid and x? the
result of thread_lookup(tid); the result is the return value, the post-state
of the target thread, and the post-state of the external to_unblock_list
(whose elements stand for the queued threads' blkelem links). -/
def kill (curTid tid : Int) (sig : Nat) (x? : Option Thread) (tub : List Int) :
    Int × Option Thread × List Int :=
  if sig = SIG_CHLD ∨ sig = SIG_CPU ∨ tid ≤ 2 then (-1, x?, tub)
  else
    match x? with
    | none => (-1, none, tub)
    | some x =>
        if sig ≠ SIG_KILL ∧ x.mask.testBit sig = true then (0, some x, tub)
        else if sig = SIG_UBLOCK then
          if x.status = ThreadStatus.BLOCKED then (0, some x, tub ++ [x.tid])
          else (0, some x, tub)
        else if sig = SIG_KILL ∧ x.ptid ≠ curTid then (-1, some x, tub)
        else if (x.signals sig).type ≠ -1 then
          (0, some { x with
                signals := updSig x.signals sig (SigSlot.mk (x.signals sig).type curTid) },
           tub)
        else
          (0, some { x with
                signals := updSig x.signals sig (SigSlot.mk (Int.ofNat sig) curTid),
                signals_queue := x.signals_queue ++ [sig] }, tub)

/-- Signal(signum, handler) from signal.c: SIG_KILL is non-overridable and
returns 0; otherwise the previous choice is mask bit signum (set means
SIG_IGN), and the bit is toggled whenever handler differs from it.  Returns
the previous handler and the new mask. -/
def Signal (signum handler : Nat) (mask : Nat) : Nat × Nat :=
  if signum = SIG_KILL then (0, mask)
  else
    let old := if mask.testBit signum then SIG_IGN else SIG_DFL
    if old ≠ handler then (old, mask ^^^ (1 <<< signum)) else (old, mask)

/-- sigprocmask(how, set, oldset) from signal.c.  set and oldset are the
caller's buffers: none is a null pointer, some v a buffer holding v.  Returns
the return value, the thread's new mask, and the oldset buffer contents after
the call. -/
def sigprocmask (how : Int) (set? old? : Option Nat) (mask : Nat) :
    Int × Nat × Option Nat :=
  match set? with
  | some s =>
      if 1 <<< NUM_SIGNAL ≤ s then (-1, mask, old?)
      else
        let old1 := old?.map (fun _ => mask)
        if how = SIG_BLOCK then (0, mask ||| s, old1)
        else if how = SIG_UNBLOCK then
          (0, mask &&& ((1 <<< NUM_SIGNAL - 1) ^^^ s), old1)
        else if how = SIG_SETMASK then (0, s, old1)
        else (-1, mask, old1)
  | none => (0, mask, old?.map (fun _ => mask))

end Signals

namespace Fixtures

/-- Constant payload memory used by the concrete runs below. -/
def memC : Buddy.Mem := fun _ _ => 7

/-- Allocator state right after p = alloc(16) on a fresh allocator with one
page available: the first step of scenario S1. -/
def stA : Buddy.AllocState := (Buddy.malloc (some 0) 16 Buddy.initState).2

/-- A thread that blocks SIG_USER (mask bit 1 set) and has nothing pending. -/
def tMasked : Signals.Thread :=
  { tid := 5, ptid := 1, status := Signals.ThreadStatus.RUNNING, mask := 2,
    signals := fun _ => Signals.SigSlot.mk (-1) 0, signals_queue := [] }

/-- A thread with a pending SIG_USER: slot 1 holds type 1 sent by thread 2 and
its link sits on signals_queue. -/
def tPending : Signals.Thread :=
  { tid := 9, ptid := 1, status := Signals.ThreadStatus.RUNNING, mask := 0,
    signals := fun j => if j = 1 then Signals.SigSlot.mk 1 2 else Signals.SigSlot.mk (-1) 0,
    signals_queue := [1] }

/-- A blocked thread with empty mask and no pending signals. -/
def tBlocked : Signals.Thread :=
  { tid := 7, ptid := 1, status := Signals.ThreadStatus.BLOCKED, mask := 0,
    signals := fun _ => Signals.SigSlot.mk (-1) 0, signals_queue := [] }

end Fixtures

open Buddy Signals Fixtures

/-- Claim C1: starting from a fresh allocator with PageSize 4096, alloc(16)
obtains exactly one new page, appends it to the arena list, and splits the
installed maximal block down so that the free lists for sizes 32, 64, 128,
256, 512 and 1024 each hold exactly one block, the successive upper halves at
offsets equal to their sizes; the returned block is the arena's first payload
slot and its SlotMap entry is 16.  Freeing that block coalesces through every
class, hands the arena back to the page provider and leaves the arena list
empty, restoring the fresh allocator state. -/
theorem C1_alloc16_splits_and_free_releases :
    (malloc (some 0) 16 initState).1 = some (Block.mk 0 0) ∧
    (malloc (some 0) 16 initState).2.pageList.map Arena.id = [0] ∧
    getList (malloc (some 0) 16 initState).2 0 = [Block.mk 0 16] ∧
    getList (malloc (some 0) 16 initState).2 1 = [Block.mk 0 32] ∧
    getList (malloc (some 0) 16 initState).2 2 = [Block.mk 0 64] ∧
    getList (malloc (some 0) 16 initState).2 3 = [Block.mk 0 128] ∧
    getList (malloc (some 0) 16 initState).2 4 = [Block.mk 0 256] ∧
    getList (malloc (some 0) 16 initState).2 5 = [Block.mk 0 512] ∧
    getList (malloc (some 0) 16 initState).2 6 = [Block.mk 0 1024] ∧
    getList (malloc (some 0) 16 initState).2 7 = [] ∧
    block_size (malloc (some 0) 16 initState).2 (Block.mk 0 0) = 16 ∧
    free (some (Block.mk 0 0)) (malloc (some 0) 16 initState).2 =
      { freeLists := List.replicate 8 [], pageList := [], released := [0] } := by
  decide

/-- Claim C4: for every size with size == 0 or size > PageSize/2, alloc(size)
returns null and leaves the allocator state unchanged. -/
theorem C4_malloc_invalid_size (fresh : Option Nat) (size : Nat)
    (st : AllocState) (h : size = 0 ∨ PGSIZE / 2 < size) :
    malloc fresh size st = (none, st) := by
  unfold malloc
  rw [if_pos h]

/-- Witness for C4: alloc(4096) on the fresh allocator with a page available. -/
theorem C4_malloc_invalid_size_witness :
    ((4096 = 0 ∨ PGSIZE / 2 < 4096) ∧
      malloc (some 5) 4096 initState = (none, initState)) :=
  ⟨by decide, C4_malloc_invalid_size (some 5) 4096 initState (by decide)⟩

/-- A malloc that returns null leaves the allocator state unchanged: the scan
popped nothing and the refill returned before any mutation. -/
theorem malloc_none_state (fresh : Option Nat) (n : Nat) (st : AllocState)
    (h : (malloc fresh n st).1 = none) : (malloc fresh n st).2 = st := by
  by_cases hg : n = 0 ∨ PGSIZE / 2 < n
  · simp [malloc, hg]
  · rcases hf : findIdx n st with _ | i
    · rcases fresh with _ | aid
      · simp [malloc, hg, hf]
      · exfalso
        revert h
        simp [malloc, hg, hf, mallocFinish]
    · exfalso
      revert h
      simp [malloc, hg, hf, mallocFinish]

/-- A malloc that returns a block was called with a size in (0, PGSIZE/2]. -/
theorem malloc_some_size_ok (fresh : Option Nat) (n : Nat) (st : AllocState)
    (b : Block) (h : (malloc fresh n st).1 = some b) :
    n ≠ 0 ∧ n ≤ PGSIZE / 2 := by
  by_cases hg : n = 0 ∨ PGSIZE / 2 < n
  · exfalso
    revert h
    simp [malloc, hg]
  · push_neg at hg
    exact hg

/-- Claim C3: realloc(old, new_size) frees old and returns null when
new_size = 0; behaves exactly as alloc(new_size) when old is null; on a
successful internal alloc copies exactly min(new_size, old_block_size) bytes,
with old_block_size read back from the SlotMap, and frees old; and on a
failed internal alloc returns null leaving the allocator state and the
payload memory, hence the live old block and its contents, unchanged. -/
theorem C3_realloc_contract (fresh : Option Nat) (st : AllocState) (m : Mem) :
    (∀ old, realloc fresh old 0 st m = (none, free old st, m)) ∧
    (∀ n, realloc fresh none n st m =
      ((malloc fresh n st).1, (malloc fresh n st).2, m)) ∧
    (∀ ob n nb, n ≠ 0 → (malloc fresh n st).1 = some nb →
      realloc fresh (some ob) n st m =
        (some nb, free (some ob) (malloc fresh n st).2,
         memcpy nb ob (min n (block_size (malloc fresh n st).2 ob)) m) ∧
      ∀ a o, memcpy nb ob (min n (block_size (malloc fresh n st).2 ob)) m a o =
        if a = nb.arena ∧ nb.off ≤ o ∧
            o < nb.off + min n (block_size (malloc fresh n st).2 ob) then
          m ob.arena (ob.off + (o - nb.off))
        else m a o) ∧
    (∀ ob n, n ≠ 0 → (malloc fresh n st).1 = none →
      realloc fresh (some ob) n st m = (none, st, m)) := by
  refine ⟨?_, ?_, ?_, ?_⟩
  · intro old
    simp [realloc]
  · intro n
    by_cases hn : n = 0
    · subst hn
      have hm : malloc fresh 0 st = (none, st) := by simp [malloc]
      simp [realloc, free, hm]
    · simp [realloc, hn]
  · intro ob n nb hn hb
    constructor
    · simp [realloc, hn, hb]
    · intro a o
      rfl
  · intro ob n hn hnone
    simp [realloc, hn, hnone, malloc_none_state fresh n st hnone]

/-- Witness for C3: growing the live 16-byte block at offset 0 of scenario
S1's state to 64 bytes succeeds with the free 64-byte block at offset 64 and
copies min(64, 16) = 16 bytes. -/
theorem C3_realloc_contract_witness :
    ((64 ≠ 0 ∧ (malloc none 64 stA).1 = some (Block.mk 0 64)) ∧
      realloc none (some (Block.mk 0 0)) 64 stA memC =
        (some (Block.mk 0 64), free (some (Block.mk 0 0)) (malloc none 64 stA).2,
         memcpy (Block.mk 0 64) (Block.mk 0 0)
           (min 64 (block_size (malloc none 64 stA).2 (Block.mk 0 0))) memC)) :=
  ⟨⟨by decide, by decide⟩,
   ((C3_realloc_contract none stA memC).2.2.1 (Block.mk 0 0) 64 (Block.mk 0 64)
      (by decide) (by decide)).1⟩

/-- Claim C5: calloc detects multiplicative overflow exactly by the wrap-around
test a*b < a or a*b < b and returns null (with no state change) when it
fires; otherwise it either returns null or returns a block whose first a*b
bytes of payload are all zero. -/
theorem C5_calloc_overflow_or_zeroed (fresh : Option Nat) (a b : Nat)
    (st : AllocState) (m : Mem) (ha : a < W32) (hb : b < W32) :
    ((a * b) % W32 < a ∨ (a * b) % W32 < b →
      calloc fresh a b st m = (none, st, m)) ∧
    (¬((a * b) % W32 < a ∨ (a * b) % W32 < b) →
      (calloc fresh a b st m).1 = none ∨
      ∃ p, (calloc fresh a b st m).1 = some p ∧
        ∀ i, i < a * b → (calloc fresh a b st m).2.2 p.arena (p.off + i) = 0) := by
  constructor
  · intro h
    simp [calloc, h]
  · intro h
    rcases hr : (malloc fresh ((a * b) % W32) st).1 with _ | p
    · left
      simp [calloc, h, hr]
    · right
      have hceq : calloc fresh a b st m =
          (some p, (malloc fresh ((a * b) % W32) st).2,
           memset p 0 ((a * b) % W32) m) := by
        simp [calloc, h, hr]
      have h2 := h
      push_neg at h2
      have hsz := malloc_some_size_ok fresh ((a * b) % W32) st p hr
      have h2048 : (a * b) % W32 ≤ 2048 := hsz.2
      have hab : a * b < W32 := by
        have haa : a ≤ 2048 := le_trans h2.1 h2048
        have hbb : b ≤ 2048 := le_trans h2.2 h2048
        calc a * b ≤ 2048 * 2048 := Nat.mul_le_mul haa hbb
          _ < W32 := by norm_num [W32]
      have hmod : (a * b) % W32 = a * b := Nat.mod_eq_of_lt hab
      refine ⟨p, by rw [hceq], ?_⟩
      intro i hi
      rw [hceq]
      show memset p 0 ((a * b) % W32) m p.arena (p.off + i) = 0
      unfold memset
      rw [if_pos ⟨rfl, Nat.le_add_right _ _, by omega⟩]

/-- Witness for C5: calloc(2, 3) on the fresh allocator zeroes the first six
bytes of the returned block. -/
theorem C5_calloc_overflow_or_zeroed_witness :
    ((2 < W32 ∧ 3 < W32 ∧ ¬((2 * 3) % W32 < 2 ∨ (2 * 3) % W32 < 3)) ∧
      ((calloc (some 0) 2 3 initState memC).1 = none ∨
        ∃ p, (calloc (some 0) 2 3 initState memC).1 = some p ∧
          ∀ i, i < 2 * 3 →
            (calloc (some 0) 2 3 initState memC).2.2 p.arena (p.off + i) = 0)) :=
  ⟨⟨by decide, by decide, by decide⟩,
   (C5_calloc_overflow_or_zeroed (some 0) 2 3 initState memC (by decide)
      (by decide)).2 (by decide)⟩

/-- Claim C6: an accepted send whose target slot for sig is occupied only
overwrites that slot's sender with the caller's tid, pushes nothing onto
signals_queue and returns 0; when the slot is empty it populates it with
type sig and the caller's tid and appends the slot's link to the end of
signals_queue.  All other pending slots are untouched in both cases. -/
theorem C6_send_coalesces (curTid tid : Int) (sig : Nat) (x : Thread)
    (tub : List Int) (r : Int × Option Thread × List Int)
    (hr : kill curTid tid sig (some x) tub = r)
    (h1 : sig ≠ SIG_CHLD) (h2 : sig ≠ SIG_CPU) (h3 : 2 < tid)
    (h4 : ¬(sig ≠ SIG_KILL ∧ x.mask.testBit sig = true))
    (h5 : sig ≠ SIG_UBLOCK)
    (h6 : sig = SIG_KILL → x.ptid = curTid) :
    (((x.signals sig).type ≠ -1 →
       r.1 = 0 ∧ r.2.2 = tub ∧
       r.2.1.map Thread.signals_queue = some x.signals_queue ∧
       r.2.1.map (fun t => t.signals sig) =
         some (SigSlot.mk (x.signals sig).type curTid) ∧
       (∀ j, j ≠ sig → r.2.1.map (fun t => t.signals j) = some (x.signals j))) ∧
     ((x.signals sig).type = -1 →
       r.1 = 0 ∧ r.2.2 = tub ∧
       r.2.1.map Thread.signals_queue = some (x.signals_queue ++ [sig]) ∧
       r.2.1.map (fun t => t.signals sig) = some (SigSlot.mk (Int.ofNat sig) curTid) ∧
       (∀ j, j ≠ sig → r.2.1.map (fun t => t.signals j) = some (x.signals j)))) := by
  subst hr
  have hguard : ¬(sig = SIG_CHLD ∨ sig = SIG_CPU ∨ tid ≤ 2) := by
    push_neg
    exact ⟨h1, h2, by omega⟩
  have hkill : ¬(sig = SIG_KILL ∧ x.ptid ≠ curTid) := fun hc => hc.2 (h6 hc.1)
  constructor
  · intro hocc
    have hk : kill curTid tid sig (some x) tub =
        (0, some { x with
              signals := updSig x.signals sig (SigSlot.mk (x.signals sig).type curTid) },
         tub) := by
      simp [kill, hguard, h4, h5, hkill, hocc]
    refine ⟨by simp [hk], by simp [hk], by simp [hk], ?_, ?_⟩
    · simp [hk, updSig]
    · intro j hj
      simp [hk, updSig, hj]
  · intro hemp
    have hocc : ¬((x.signals sig).type ≠ -1) := by simp [hemp]
    have hk : kill curTid tid sig (some x) tub =
        (0, some { x with
              signals := updSig x.signals sig (SigSlot.mk (Int.ofNat sig) curTid),
              signals_queue := x.signals_queue ++ [sig] },
         tub) := by
      simp [kill, hguard, h4, h5, hkill, hocc]
    refine ⟨by simp [hk], by simp [hk], by simp [hk], ?_, ?_⟩
    · simp [hk, updSig]
    · intro j hj
      simp [hk, updSig, hj]

/-- Witness for C6: re-sending the pending SIG_USER of tPending from thread 1
only rewrites the sender and leaves signals_queue at its old value. -/
theorem C6_send_coalesces_witness :
    ((tPending.signals 1).type ≠ -1 ∧
      (kill 1 9 1 (some tPending) []).1 = 0 ∧
      (kill 1 9 1 (some tPending) []).2.2 = [] ∧
      (kill 1 9 1 (some tPending) []).2.1.map Thread.signals_queue =
        some tPending.signals_queue ∧
      (kill 1 9 1 (some tPending) []).2.1.map (fun t => t.signals 1) =
        some (SigSlot.mk (tPending.signals 1).type 1) ∧
      (kill 1 9 1 (some tPending) []).2.1.map (fun t => t.signals 3) =
        some (tPending.signals 3)) := by
  have h := (C6_send_coalesces 1 9 1 tPending [] (kill 1 9 1 (some tPending) [])
    rfl (by decide) (by decide) (by decide) (by decide) (by decide)
    (by decide)).1 (by decide)
  exact ⟨by decide, h.1, h.2.1, h.2.2.1, h.2.2.2.1, h.2.2.2.2 3 (by decide)⟩

/-- Claim C7: send returns -1 exactly when sig is SIG_CHLD or SIG_CPU, or
tid is at most 2, or the thread lookup fails, or sig is SIG_KILL and the
caller is not the target's parent; and a send that passes those rejections
with sig not SIG_KILL and sig blocked in the target's mask is a no-op that
returns 0, leaving the target thread (pending slots, signals_queue, mask,
status) and the to_unblock_list unchanged: the signal is not queued. -/
theorem C7_send_rejections (curTid tid : Int) (sig : Nat) (x? : Option Thread)
    (tub : List Int) :
    ((kill curTid tid sig x? tub).1 = -1 ↔
      sig = SIG_CHLD ∨ sig = SIG_CPU ∨ tid ≤ 2 ∨ x? = none ∨
        (sig = SIG_KILL ∧ ∀ x, x? = some x → x.ptid ≠ curTid)) ∧
    (∀ x, x? = some x → sig ≠ SIG_CHLD → sig ≠ SIG_CPU → 2 < tid →
      sig ≠ SIG_KILL → x.mask.testBit sig = true →
      kill curTid tid sig x? tub = (0, some x, tub)) := by
  constructor
  · by_cases hg : sig = SIG_CHLD ∨ sig = SIG_CPU ∨ tid ≤ 2
    · constructor
      · intro _
        tauto
      · intro _
        show (kill curTid tid sig x? tub).1 = -1
        unfold kill
        rw [if_pos hg]
    · have hg2 := hg
      push_neg at hg2
      obtain ⟨hc1, hc2, hc3⟩ := hg2
      rcases x? with _ | x
      · simp [kill, hg]
      · by_cases hm : sig ≠ SIG_KILL ∧ x.mask.testBit sig = true
        · have hk : (kill curTid tid sig (some x) tub).1 = 0 := by
            simp [kill, hg, hm]
          rw [hk]
          constructor
          · intro h
            exact absurd h (by decide)
          · rintro (h | h | h | h | ⟨hkk, -⟩)
            · exact absurd h hc1
            · exact absurd h hc2
            · omega
            · exact Option.noConfusion h
            · exact absurd hkk hm.1
        · by_cases hu : sig = SIG_UBLOCK
          · have hnt : ¬(tid ≤ 2) := by omega
            have hk : (kill curTid tid sig (some x) tub).1 = 0 := by
              by_cases hs : x.status = ThreadStatus.BLOCKED <;>
                  simp [kill, SIG_CHLD, SIG_CPU, SIG_KILL, SIG_UBLOCK, hnt, hm, hu, hs] <;>
                split <;> rfl
            rw [hk]
            constructor
            · intro h
              exact absurd h (by decide)
            · rintro (h | h | h | h | ⟨hkk, -⟩)
              · exact absurd h hc1
              · exact absurd h hc2
              · omega
              · exact Option.noConfusion h
              · rw [hu] at hkk
                exact absurd hkk (by decide)
          · by_cases hk2 : sig = SIG_KILL
            · by_cases hp : x.ptid = curTid
              · have hcond : ¬(sig = SIG_KILL ∧ x.ptid ≠ curTid) := fun hc => hc.2 hp
                have hk : (kill curTid tid sig (some x) tub).1 = 0 := by
                  by_cases hslot : (x.signals sig).type ≠ -1 <;>
                    simp [kill, hg, hm, hu, hcond, hslot]
                rw [hk]
                constructor
                · intro h
                  exact absurd h (by decide)
                · rintro (h | h | h | h | ⟨-, hall⟩)
                  · exact absurd h hc1
                  · exact absurd h hc2
                  · omega
                  · exact Option.noConfusion h
                  · exact absurd hp (hall x rfl)
              · have hcond : sig = SIG_KILL ∧ x.ptid ≠ curTid := ⟨hk2, hp⟩
                have hnt : ¬(tid ≤ 2) := by omega
                have hk : (kill curTid tid sig (some x) tub).1 = -1 := by
                  simp [kill, SIG_CHLD, SIG_CPU, SIG_KILL, SIG_UBLOCK, hnt, hcond]
                rw [hk]
                constructor
                · intro _
                  refine Or.inr (Or.inr (Or.inr (Or.inr ⟨hk2, ?_⟩)))
                  rintro x0 hx0
                  cases hx0
                  exact hp
                · intro _
                  rfl
            · have hcond : ¬(sig = SIG_KILL ∧ x.ptid ≠ curTid) :=
                fun hc => absurd hc.1 hk2
              have hk : (kill curTid tid sig (some x) tub).1 = 0 := by
                by_cases hslot : (x.signals sig).type ≠ -1 <;>
                  simp [kill, hg, hm, hu, hcond, hslot]
              rw [hk]
              constructor
              · intro h
                exact absurd h (by decide)
              · rintro (h | h | h | h | ⟨hkk, -⟩)
                · exact absurd h hc1
                · exact absurd h hc2
                · omega
                · exact Option.noConfusion h
                · exact absurd hkk hk2
  · rintro x rfl hch hcp htid hnk hbit
    have hg : ¬(sig = SIG_CHLD ∨ sig = SIG_CPU ∨ tid ≤ 2) := by
      push_neg
      exact ⟨hch, hcp, by omega⟩
    have hm : sig ≠ SIG_KILL ∧ x.mask.testBit sig = true := ⟨hnk, hbit⟩
    simp [kill, hg, hm]

/-- Witness for C7: sending the blocked SIG_USER to tMasked is accepted but is
a complete no-op returning 0. -/
theorem C7_send_rejections_witness :
    ((1 ≠ SIG_CHLD ∧ 1 ≠ SIG_CPU ∧ (2:Int) < 5 ∧ 1 ≠ SIG_KILL ∧
        tMasked.mask.testBit 1 = true) ∧
      kill 1 5 1 (some tMasked) [] = (0, some tMasked, [])) :=
  ⟨⟨by decide, by decide, by decide, by decide, by decide⟩,
   (C7_send_rejections 1 5 1 (some tMasked) []).2 tMasked rfl (by decide)
     (by decide) (by decide) (by decide) (by decide)⟩

/-- Claim C10: a send of SIG_UBLOCK to a target that does not block it returns
0, never touches the target's pending slots or signals_queue (the target
thread is unchanged), and appends the target's blkelem to the external
to_unblock_list exactly when the target's status is THREAD_BLOCKED. -/
theorem C10_send_ublock_frame (curTid tid : Int) (x : Thread) (tub : List Int)
    (h1 : 2 < tid) (h2 : x.mask.testBit SIG_UBLOCK = false) :
    kill curTid tid SIG_UBLOCK (some x) tub =
      (0, some x,
       if x.status = ThreadStatus.BLOCKED then tub ++ [x.tid] else tub) := by
  have hguard : ¬(SIG_UBLOCK = SIG_CHLD ∨ SIG_UBLOCK = SIG_CPU ∨ tid ≤ 2) := by
    push_neg
    refine ⟨by decide, by decide, by omega⟩
  have hm : ¬(SIG_UBLOCK ≠ SIG_KILL ∧ x.mask.testBit SIG_UBLOCK = true) := by
    rintro ⟨-, hbit⟩
    rw [h2] at hbit
    exact Bool.false_ne_true hbit
  by_cases hs : x.status = ThreadStatus.BLOCKED <;> simp [kill, hguard, hm, hs]

/-- Witness for C10: SIG_UBLOCK to the blocked thread tBlocked queues its
blkelem on to_unblock_list and changes nothing else. -/
theorem C10_send_ublock_frame_witness :
    (((2:Int) < 7 ∧ tBlocked.mask.testBit SIG_UBLOCK = false) ∧
      kill 1 7 SIG_UBLOCK (some tBlocked) [] =
        (0, some tBlocked,
         if tBlocked.status = ThreadStatus.BLOCKED then [] ++ [tBlocked.tid]
         else [])) :=
  ⟨⟨by decide, by decide⟩, C10_send_ublock_frame 1 7 tBlocked [] (by decide) (by decide)⟩

/-- Counterexample to claim C8 as stated: with an unknown how = 3, a valid set
and a non-null oldset, sigprocmask returns -1 yet has already overwritten the
caller's oldset (initially 0) with the current mask 5, so the error return is
not free of state change. -/
theorem C8_oldset_counterexample :
    (sigprocmask 3 (some 1) (some 0) 5).1 = -1 ∧
    ¬((sigprocmask 3 (some 1) (some 0) 5).2.2 = some 0) := by
  decide

/-- Claim C8 as amended: oldset (when non-null) receives the current mask on
every path that passes the set-range check, including the unknown-how error
return, which still leaves the mask itself unchanged; a set containing bits
at or above NUM_SIGNAL returns -1 before anything, including oldset, is
touched; a null set reports only; SIG_BLOCK unions, SIG_UNBLOCK intersects
with the complement bounded to the NUM_SIGNAL valid bits, SIG_SETMASK
assigns. -/
theorem C8_sigprocmask_amended (how : Int) (set? old? : Option Nat)
    (mask : Nat) :
    (∀ s, set? = some s → 1 <<< NUM_SIGNAL ≤ s →
      sigprocmask how set? old? mask = ((-1 : Int), mask, old?)) ∧
    (set? = none →
      sigprocmask how set? old? mask = ((0 : Int), mask, old?.map (fun _ => mask))) ∧
    (∀ s, set? = some s → s < 1 <<< NUM_SIGNAL →
      sigprocmask how set? old? mask =
        (if how = SIG_BLOCK then ((0 : Int), mask ||| s, old?.map (fun _ => mask))
         else if how = SIG_UNBLOCK then
           ((0 : Int), mask &&& ((1 <<< NUM_SIGNAL - 1) ^^^ s), old?.map (fun _ => mask))
         else if how = SIG_SETMASK then ((0 : Int), s, old?.map (fun _ => mask))
         else ((-1 : Int), mask, old?.map (fun _ => mask)))) := by
  refine ⟨?_, ?_, ?_⟩
  · rintro s rfl hgs
    simp [sigprocmask, hgs]
  · rintro rfl
    rfl
  · rintro s rfl hlt
    simp only [sigprocmask]
    rw [if_neg (Nat.not_le.mpr hlt)]

/-- Witness for the amended C8: SIG_SETMASK with a valid set installs it and
writes the previous mask to oldset. -/
theorem C8_sigprocmask_amended_witness :
    ((3:Nat) < 1 <<< NUM_SIGNAL ∧
      sigprocmask SIG_SETMASK (some 3) (some 0) 5 = (0, 3, some 5)) := by
  refine ⟨by decide, ?_⟩
  have h := (C8_sigprocmask_amended SIG_SETMASK (some 3) (some 0) 5).2.2 3 rfl
    (by decide)
  rw [h]
  decide

/-- Claim C9: install_handler performs no range validation of signum: for any
signum other than SIG_KILL, including signum at or above NUM_SIGNAL, it reads
mask bit signum as the previous choice and toggles it when the handler
differs; every sigprocmask update on a valid set preserves the invariant
mask < 2^NUM_SIGNAL, but Signal on an out-of-range signum can set a bit
outside the valid range, after which restoring the resulting mask through
sigprocmask(SIG_SETMASK, ...) is rejected with -1. -/
theorem C9_Signal_no_range_validation (signum handler mask : Nat)
    (h0 : signum ≠ SIG_KILL) :
    (Signal signum handler mask =
      ((if mask.testBit signum then SIG_IGN else SIG_DFL),
       if (if mask.testBit signum then SIG_IGN else SIG_DFL) ≠ handler then
         mask ^^^ (1 <<< signum)
       else mask)) ∧
    (∀ how set1 old? m0, m0 < 2 ^ NUM_SIGNAL → set1 < 2 ^ NUM_SIGNAL →
      (sigprocmask how (some set1) old? m0).2.1 < 2 ^ NUM_SIGNAL) ∧
    (NUM_SIGNAL ≤ signum → mask.testBit signum = false → handler ≠ SIG_DFL →
      2 ^ NUM_SIGNAL ≤ (Signal signum handler mask).2 ∧
      ∀ m0 old?,
        sigprocmask SIG_SETMASK (some (Signal signum handler mask).2) old? m0 =
          (-1, m0, old?)) := by
  refine ⟨?_, ?_, ?_⟩
  · simp only [Signal, h0]
    by_cases hc : (if mask.testBit signum = true then SIG_IGN else SIG_DFL) = handler <;>
      simp [hc]
  · intro how set1 old? m0 hm0 hs1
    have hnle : ¬(1 <<< NUM_SIGNAL ≤ set1) := by
      rw [Nat.one_shiftLeft]
      exact Nat.not_le.mpr hs1
    simp only [sigprocmask]
    rw [if_neg hnle]
    by_cases hb : how = SIG_BLOCK
    · rw [if_pos hb]
      exact Nat.or_lt_two_pow hm0 hs1
    · rw [if_neg hb]
      by_cases hu : how = SIG_UNBLOCK
      · rw [if_pos hu]
        exact lt_of_le_of_lt Nat.and_le_left hm0
      · rw [if_neg hu]
        by_cases hsm : how = SIG_SETMASK
        · rw [if_pos hsm]
          exact hs1
        · rw [if_neg hsm]
          exact hm0
  · intro hge hbit hdfl
    have hdfl2 : SIG_DFL ≠ handler := fun h => hdfl h.symm
    have hS : Signal signum handler mask = (SIG_DFL, mask ^^^ (1 <<< signum)) := by
      simp [Signal, h0, hbit, hdfl2]
    have htb : (mask ^^^ (1 <<< signum)).testBit signum = true := by
      rw [Nat.testBit_xor, hbit, Nat.one_shiftLeft, Nat.testBit_two_pow_self]
      rfl
    have hge2 : 2 ^ NUM_SIGNAL ≤ mask ^^^ (1 <<< signum) := by
      have h1 : 2 ^ signum ≤ mask ^^^ (1 <<< signum) := Nat.testBit_implies_ge htb
      have h2 : (2 : Nat) ^ NUM_SIGNAL ≤ 2 ^ signum :=
        Nat.pow_le_pow_right (by norm_num) hge
      exact le_trans h2 h1
    refine ⟨by rw [hS]; exact hge2, ?_⟩
    intro m0 old?
    rw [hS]
    show sigprocmask SIG_SETMASK (some (mask ^^^ (1 <<< signum))) old? m0 = _
    have hle : 1 <<< NUM_SIGNAL ≤ mask ^^^ (1 <<< signum) := by
      rw [Nat.one_shiftLeft]
      exact hge2
    simp [sigprocmask, hle]

/-- Witness for C9: Signal(7, SIG_IGN) on mask 0 sets bit 7, and the resulting
mask 128 is rejected by sigprocmask(SIG_SETMASK, ...). -/
theorem C9_Signal_no_range_validation_witness :
    ((7 ≠ SIG_KILL ∧ NUM_SIGNAL ≤ 7 ∧ (0:Nat).testBit 7 = false ∧
        (1:Nat) ≠ SIG_DFL) ∧
      (2 ^ NUM_SIGNAL ≤ (Signal 7 1 0).2 ∧
        sigprocmask SIG_SETMASK (some (Signal 7 1 0).2) none 0 = (-1, 0, none))) := by
  refine ⟨⟨by decide, by decide, by decide, by decide⟩, ?_⟩
  have h := (C9_Signal_no_range_validation 7 1 0 (by decide)).2.2 (by decide)
    (by decide) (by decide)
  exact ⟨h.1, h.2 0 none⟩

/-- Descriptor block sizes as powers of two: 16 * 2^i = 2^(i+4). -/
theorem shift16_pow (i : Nat) : 16 <<< i = 2 ^ (i + 4) := by
  rw [Nat.shiftLeft_eq, pow_add]
  ring

/-- Doubling a block size steps to the next size class. -/
theorem shift16_double (i : Nat) : 2 * (16 <<< i) = 16 <<< (i + 1) := by
  rw [Nat.shiftLeft_eq, Nat.shiftLeft_eq, pow_add]
  ring

/-- Below the top class a block size is not PGSIZE/2. -/
theorem shift16_ne_top (i : Nat) (h : i ≤ 6) : 16 <<< i ≠ PGSIZE / 2 := by
  intro he
  have hle : 16 <<< i ≤ 1024 := by
    rw [shift16_pow]
    calc (2:Nat) ^ (i + 4) ≤ 2 ^ 10 := Nat.pow_le_pow_right (by norm_num) (by omega)
      _ = 1024 := by norm_num
  rw [he] at hle
  norm_num [PGSIZE] at hle

/-- The top class block size is PGSIZE/2. -/
theorem shift16_top : (16 <<< 7 : Nat) = PGSIZE / 2 := by decide

/-- The buddy scan covers exactly bsz/16 slots when bsz is a block size. -/
theorem shift16_div (i : Nat) : ((16 <<< i) + 15) / 16 = (16 <<< i) / 16 := by
  rw [Nat.shiftLeft_eq]
  omega

/-- The index loop of free computes the class index of a block size. -/
theorem idxLoop_shift16 (k : Nat) (hk : k ≤ 7) : idxLoop 32 0 (16 <<< k) = k := by
  interval_cases k <;> rfl

/-- One unfolding of the coalesce loop. -/
theorem coalesceLoop_succ (fuel idx bsz : Nat) (b : Block) (st : AllocState) :
    coalesceLoop (fuel + 1) idx bsz b st =
      if bsz = PGSIZE / 2 then releasePage st b.arena
      else if buddyOccupied st b.arena (b.off ^^^ bsz) bsz then pushBack st idx b
      else coalesceLoop fuel (idx + 1) (2 * bsz)
        (Block.mk b.arena (min b.off (b.off ^^^ bsz)))
        (removeBlock st (Block.mk b.arena (b.off ^^^ bsz))) := rfl

/-- The buddy scan succeeds exactly when some slot of the buddy range holds a
nonzero SlotMap entry. -/
theorem buddyOccupied_iff (st : AllocState) (aid boff bsz : Nat) :
    buddyOccupied st aid boff bsz = true ↔
      ∃ j, j < (bsz + 15) / 16 ∧ slotEntry st aid ((boff + 16 * j) >>> 4) ≠ 0 := by
  simp [buddyOccupied, List.any_eq_true, List.mem_range]

/-- Starting from a class-aligned block size at class idx, the coalesce loop
never consumes more than 8 - idx fuel, so its result does not depend on the
exact fuel as long as that much is available. -/
theorem coalesceLoop_fuel (n : Nat) :
    ∀ idx b st f g, idx + n = 7 → 8 - idx ≤ f → 8 - idx ≤ g →
      coalesceLoop f idx (16 <<< idx) b st = coalesceLoop g idx (16 <<< idx) b st := by
  induction n with
  | zero =>
      intro idx b st f g h hf hg
      have hidx : idx = 7 := by omega
      subst hidx
      obtain ⟨f1, rfl⟩ := Nat.exists_eq_succ_of_ne_zero (by omega : f ≠ 0)
      obtain ⟨g1, rfl⟩ := Nat.exists_eq_succ_of_ne_zero (by omega : g ≠ 0)
      rw [coalesceLoop_succ, coalesceLoop_succ, if_pos shift16_top, if_pos shift16_top]
  | succ n ih =>
      intro idx b st f g h hf hg
      have h6 : idx ≤ 6 := by omega
      obtain ⟨f1, rfl⟩ := Nat.exists_eq_succ_of_ne_zero (by omega : f ≠ 0)
      obtain ⟨g1, rfl⟩ := Nat.exists_eq_succ_of_ne_zero (by omega : g ≠ 0)
      rw [coalesceLoop_succ, coalesceLoop_succ,
        if_neg (shift16_ne_top idx h6), if_neg (shift16_ne_top idx h6)]
      by_cases hocc :
          buddyOccupied st b.arena (b.off ^^^ (16 <<< idx)) (16 <<< idx) = true
      · rw [if_pos hocc, if_pos hocc]
      · rw [if_neg hocc, if_neg hocc, shift16_double]
        exact ih (idx + 1) _ _ f1 g1 (by omega) (by omega) (by omega)

/-- Erasing a block that only class idx's free list can hold touches exactly
that list: the value-level form of the intrusive list_remove. -/
theorem map_erase_eq_set (ls : List (List Block)) (bb : Block) (idx : Nat)
    (hidx : idx < ls.length)
    (h : ∀ j, j < ls.length → j ≠ idx → bb ∉ ls.getD j []) :
    ls.map (fun l => l.erase bb) = ls.set idx ((ls.getD idx []).erase bb) := by
  apply List.ext_getElem
  · simp
  · intro n h1 h2
    rw [List.getElem_map, List.getElem_set]
    by_cases hn : idx = n
    · subst hn
      rw [if_pos rfl, List.getD_eq_getElem ls [] (by simpa using h1)]
    · rw [if_neg hn]
      apply List.erase_of_not_mem
      have hnm := h n (by simpa using h1) (fun hh => hn hh.symm)
      rw [List.getD_eq_getElem ls [] (by simpa using h1)] at hnm
      exact hnm

/-- Claim C2: freeing a live block of size d = 16 <<< idx first clears its
SlotMap entry and then runs the coalesce loop: when d is PGSIZE/2 the arena is
unlinked from the global arena list and the page returned to the provider in
that same step; otherwise the buddy at offset off XOR d is inspected over its
whole slot range, d/16 entries wide, and if any entry is nonzero the freed
block is pushed onto class idx = log2 d - 4 and the loop stops, else the
buddy is unlinked from class idx's free list (it sits on no other list), the
lower offset survives, d doubles, the class index increments and the loop
repeats. -/
theorem C2_free_coalesce_step (st : AllocState) (b : Block) (idx : Nat)
    (hlen : st.freeLists.length = 8)
    (hidx : idx ≤ 7)
    (hsz : block_size st b = 16 <<< idx)
    (hbd : ∀ j, j < 8 → j ≠ idx →
      Block.mk b.arena (b.off ^^^ (16 <<< idx)) ∉ getList st j) :
    free (some b) st =
      (if idx = 7 then
        releasePage (setSlot st b.arena (b.off >>> 4) 0) b.arena
      else if ∃ j, j < (16 <<< idx) / 16 ∧
          slotEntry (setSlot st b.arena (b.off >>> 4) 0) b.arena
            (((b.off ^^^ (16 <<< idx)) + 16 * j) >>> 4) ≠ 0 then
        pushBack (setSlot st b.arena (b.off >>> 4) 0) idx b
      else
        coalesceLoop 8 (idx + 1) (16 <<< (idx + 1))
          (Block.mk b.arena (min b.off (b.off ^^^ (16 <<< idx))))
          (setList (setSlot st b.arena (b.off >>> 4) 0) idx
            ((getList st idx).erase
              (Block.mk b.arena (b.off ^^^ (16 <<< idx)))))) := by
  have hfree : free (some b) st =
      coalesceLoop 8 (idxLoop 32 0 (block_size st b)) (block_size st b) b
        (setSlot st b.arena (b.off >>> 4) 0) := rfl
  rw [hfree, hsz, idxLoop_shift16 idx hidx]
  by_cases h7 : idx = 7
  · subst h7
    rw [if_pos rfl]
    change coalesceLoop (7 + 1) _ _ _ _ = _
    rw [coalesceLoop_succ, if_pos shift16_top]
  · have h6 : idx ≤ 6 := by omega
    rw [if_neg h7]
    change coalesceLoop (7 + 1) _ _ _ _ = _
    rw [coalesceLoop_succ, if_neg (shift16_ne_top idx h6)]
    by_cases hocc : ∃ j, j < (16 <<< idx) / 16 ∧
        slotEntry (setSlot st b.arena (b.off >>> 4) 0) b.arena
          (((b.off ^^^ (16 <<< idx)) + 16 * j) >>> 4) ≠ 0
    · have hoccB : buddyOccupied (setSlot st b.arena (b.off >>> 4) 0) b.arena
          (b.off ^^^ (16 <<< idx)) (16 <<< idx) = true := by
        rw [buddyOccupied_iff]
        obtain ⟨j, hj1, hj2⟩ := hocc
        refine ⟨j, ?_, hj2⟩
        rw [shift16_div]
        exact hj1
      rw [if_pos hoccB, if_pos hocc]
    · have hoccB : ¬(buddyOccupied (setSlot st b.arena (b.off >>> 4) 0) b.arena
          (b.off ^^^ (16 <<< idx)) (16 <<< idx) = true) := by
        rw [buddyOccupied_iff]
        rintro ⟨j, hj1, hj2⟩
        refine hocc ⟨j, ?_, hj2⟩
        rw [← shift16_div]
        exact hj1
      rw [if_neg hoccB, if_neg hocc, shift16_double]
      have hstate : removeBlock (setSlot st b.arena (b.off >>> 4) 0)
            (Block.mk b.arena (b.off ^^^ (16 <<< idx))) =
          setList (setSlot st b.arena (b.off >>> 4) 0) idx
            ((getList st idx).erase (Block.mk b.arena (b.off ^^^ (16 <<< idx)))) := by
        unfold removeBlock setList
        congr 1
        apply map_erase_eq_set
        · show idx < st.freeLists.length
          omega
        · intro j hj hne
          have hj8 : j < 8 := by
            have : j < st.freeLists.length := hj
            omega
          exact hbd j hj8 hne
      rw [hstate]
      exact coalesceLoop_fuel (6 - idx) (idx + 1) _ _ 7 8 (by omega) (by omega)
        (by omega)

/-- Witness for C2: freeing the live 16-byte block at offset 0 of scenario
S1's state; its buddy at offset 16 is entirely free and sits only on class
0's free list, so the merge branch is taken. -/
theorem C2_free_coalesce_step_witness :
    ((stA.freeLists.length = 8 ∧ (0:Nat) ≤ 7 ∧
        block_size stA (Block.mk 0 0) = 16 <<< 0 ∧
        ∀ j, j < 8 → j ≠ 0 → Block.mk 0 (0 ^^^ (16 <<< 0)) ∉ getList stA j) ∧
      free (some (Block.mk 0 0)) stA =
        (if (0:Nat) = 7 then
          releasePage (setSlot stA 0 (0 >>> 4) 0) 0
        else if ∃ j, j < (16 <<< 0) / 16 ∧
            slotEntry (setSlot stA 0 (0 >>> 4) 0) 0
              (((0 ^^^ (16 <<< 0)) + 16 * j) >>> 4) ≠ 0 then
          pushBack (setSlot stA 0 (0 >>> 4) 0) 0 (Block.mk 0 0)
        else
          coalesceLoop 8 (0 + 1) (16 <<< (0 + 1))
            (Block.mk 0 (min 0 (0 ^^^ (16 <<< 0))))
            (setList (setSlot stA 0 (0 >>> 4) 0) 0
              ((getList stA 0).erase (Block.mk 0 (0 ^^^ (16 <<< 0))))))) :=
  ⟨⟨by decide, by decide, by decide, by decide⟩,
   C2_free_coalesce_step stA (Block.mk 0 0) 0 (by decide) (by decide) (by decide)
     (by decide)⟩
